import Mathlib

/-!
Shallow embedding of `src/data_pipeline.py` (movies_sandbox_db).

The pipeline reads a wide movies table, repairs pseudo-JSON entity-list
fields (`genres`, `production_companies`) by replacing single quotes with
double quotes and strictly JSON-parsing the result, explodes them into
entity and bridge accumulators, and builds a fact table, deduplicating
with pandas `drop_duplicates`.

Conventions of the embedding:
* Python cell values from the CSV are `PyVal`; parsed JSON values are `JVal`.
* JSON numbers are modelled as exact rationals (`Rat`); Python's numeric
  equality `1 == 1.0` agrees with `Rat` equality on such values.
* Python exceptions are surfaced as `Except PyErr` / `Option PyErr`;
  `json.JSONDecodeError` never escapes `parse_json_string` and is therefore
  handled inline rather than given a constructor.
* Log lines are modelled as `(primary id, error)` pairs, abstracting the
  f-string `"Error processing row with movie ID '{row['id']}': {e}"`.
-/

/-- A parsed JSON value, as produced by Python's `json.loads` with default
settings (which additionally accepts the literals `NaN`, `Infinity` and
`-Infinity`). Objects keep insertion order, as Python dicts do. -/
inductive JVal where
  | null : JVal
  | bool (b : Bool) : JVal
  | num (q : Rat) : JVal
  | nan : JVal
  | inf (neg : Bool) : JVal
  | str (s : String) : JVal
  | arr (xs : List JVal) : JVal
  | obj (kvs : List (String × JVal)) : JVal

mutual

/-- Structural equality of JSON values (Python `==` on `json.loads` output,
restricted to insertion-order-sensitive dict comparison). -/
def JVal.beq : JVal → JVal → Bool
  | .null, .null => true
  | .bool a, .bool b => a = b
  | .num a, .num b => a = b
  | .nan, .nan => true
  | .inf a, .inf b => a = b
  | .str a, .str b => a = b
  | .arr xs, .arr ys => JVal.beqArr xs ys
  | .obj xs, .obj ys => JVal.beqObj xs ys
  | _, _ => false

/-- Elementwise `JVal.beq` on lists. -/
def JVal.beqArr : List JVal → List JVal → Bool
  | [], [] => true
  | x :: xs, y :: ys => JVal.beq x y && JVal.beqArr xs ys
  | _, _ => false

/-- Elementwise `JVal.beq` on key-value lists. -/
def JVal.beqObj : List (String × JVal) → List (String × JVal) → Bool
  | [], [] => true
  | (k, v) :: xs, (k2, v2) :: ys => k = k2 && JVal.beq v v2 && JVal.beqObj xs ys
  | _, _ => false

end

mutual

def JVal.eq_of_beq : ∀ {a b : JVal}, JVal.beq a b = true → a = b
  | .null, .null, _ => rfl
  | .bool _, .bool _, h => by simpa [JVal.beq] using h
  | .num _, .num _, h => by simpa [JVal.beq] using h
  | .nan, .nan, _ => rfl
  | .inf _, .inf _, h => by simpa [JVal.beq] using h
  | .str _, .str _, h => by simpa [JVal.beq] using h
  | .arr xs, .arr ys, h => by
      simpa using congrArg JVal.arr (JVal.eq_of_beqArr (by simpa [JVal.beq] using h))
  | .obj xs, .obj ys, h => by
      simpa using congrArg JVal.obj (JVal.eq_of_beqObj (by simpa [JVal.beq] using h))

def JVal.eq_of_beqArr : ∀ {xs ys : List JVal}, JVal.beqArr xs ys = true → xs = ys
  | [], [], _ => rfl
  | x :: xs, y :: ys, h => by
      have h' := h
      simp only [JVal.beqArr, Bool.and_eq_true] at h'
      exact congrArg₂ List.cons (JVal.eq_of_beq h'.1) (JVal.eq_of_beqArr h'.2)

def JVal.eq_of_beqObj :
    ∀ {xs ys : List (String × JVal)}, JVal.beqObj xs ys = true → xs = ys
  | [], [], _ => rfl
  | (k, v) :: xs, (k2, v2) :: ys, h => by
      have h' := h
      simp only [JVal.beqObj, Bool.and_eq_true, decide_eq_true_eq] at h'
      have hk : k = k2 := h'.1.1
      have hv : v = v2 := JVal.eq_of_beq h'.1.2
      have ht : xs = ys := JVal.eq_of_beqObj h'.2
      simp [hk, hv, ht]

end

mutual

def JVal.beq_refl : ∀ (a : JVal), JVal.beq a a = true
  | .null => rfl
  | .bool _ => by simp [JVal.beq]
  | .num _ => by simp [JVal.beq]
  | .nan => rfl
  | .inf _ => by simp [JVal.beq]
  | .str _ => by simp [JVal.beq]
  | .arr xs => by simpa [JVal.beq] using JVal.beqArr_refl xs
  | .obj xs => by simpa [JVal.beq] using JVal.beqObj_refl xs

def JVal.beqArr_refl : ∀ (xs : List JVal), JVal.beqArr xs xs = true
  | [] => rfl
  | x :: xs => by simp [JVal.beqArr, JVal.beq_refl x, JVal.beqArr_refl xs]

def JVal.beqObj_refl : ∀ (xs : List (String × JVal)), JVal.beqObj xs xs = true
  | [] => rfl
  | (k, v) :: xs => by simp [JVal.beqObj, JVal.beq_refl v, JVal.beqObj_refl xs]

end

instance : DecidableEq JVal := fun a b =>
  if h : JVal.beq a b = true then
    .isTrue (JVal.eq_of_beq h)
  else
    .isFalse (fun he => h (he ▸ JVal.beq_refl a))

/-- A pandas cell value as seen by the row loop (`row[col]`):
a string, an integer, a float, the float `NaN` (pandas' missing value),
or Python `None`. -/
inductive PyVal where
  | str (s : String) : PyVal
  | int (n : Int) : PyVal
  | float (q : Rat) : PyVal
  | nan : PyVal
  | none_ : PyVal
deriving DecidableEq

/-- The Python exceptions the row loop can raise. -/
inductive PyErr where
  | keyError (k : String) : PyErr
  | typeError (msg : String) : PyErr
  | attributeError (msg : String) : PyErr
deriving DecidableEq

instance {ε α : Type} [DecidableEq ε] [DecidableEq α] : DecidableEq (Except ε α) :=
  fun a b =>
    match a, b with
    | .ok x, .ok y =>
      if h : x = y then .isTrue (h ▸ rfl) else .isFalse (fun he => h (by cases he; rfl))
    | .error x, .error y =>
      if h : x = y then .isTrue (h ▸ rfl) else .isFalse (fun he => h (by cases he; rfl))
    | .ok _, .error _ => .isFalse (fun he => Except.noConfusion he)
    | .error _, .ok _ => .isFalse (fun he => Except.noConfusion he)

/-! ### A strict JSON parser, modelling Python `json.loads` (default settings)

`json.loads` accepts RFC-8259 JSON plus the extra literals `NaN`,
`Infinity` and `-Infinity`.  Whitespace is space, tab, newline, carriage
return.  Strings use double quotes only, reject unescaped control
characters, and support the escapes `\" \\ \/ \b \f \n \r \t \uXXXX`
(the model decodes each `\uXXXX` to a single code point, approximating
CPython's surrogate-pair combination, which no claim exercises).
Numbers follow the strict grammar (no leading zeros, no bare `.5`).
Duplicate object keys overwrite in place, as Python dict insertion does. -/

/-- JSON whitespace accepted by `json.loads`. -/
def isJsonWs (c : Char) : Bool :=
  c = ' ' || c = '\t' || c = '\n' || c = '\r'

/-- Drop leading JSON whitespace. -/
def skipWs : List Char → List Char
  | [] => []
  | c :: cs => if isJsonWs c then skipWs cs else c :: cs

/-- Strip an expected literal token from the front of the input. -/
def stripTok : List Char → List Char → Option (List Char)
  | [], cs => some cs
  | t :: ts, c :: cs => if c = t then stripTok ts cs else none
  | _ :: _, [] => none

/-- Value of a hexadecimal digit, if the character is one. -/
def hexVal (c : Char) : Option Nat :=
  if '0' ≤ c ∧ c ≤ '9' then some (c.toNat - 48)
  else if 'a' ≤ c ∧ c ≤ 'f' then some (c.toNat - 87)
  else if 'A' ≤ c ∧ c ≤ 'F' then some (c.toNat - 70)
  else none

/-- Parse the body of a JSON string after the opening quote; returns the
decoded characters and the input after the closing quote. -/
def parseStringBody : List Char → Option (List Char × List Char)
  | [] => none
  | '"' :: rest => some ([], rest)
  | '\\' :: esc =>
    match esc with
    | '"' :: rest => (parseStringBody rest).map (fun p => ('"' :: p.1, p.2))
    | '\\' :: rest => (parseStringBody rest).map (fun p => ('\\' :: p.1, p.2))
    | '/' :: rest => (parseStringBody rest).map (fun p => ('/' :: p.1, p.2))
    | 'b' :: rest => (parseStringBody rest).map (fun p => (Char.ofNat 8 :: p.1, p.2))
    | 'f' :: rest => (parseStringBody rest).map (fun p => (Char.ofNat 12 :: p.1, p.2))
    | 'n' :: rest => (parseStringBody rest).map (fun p => ('\n' :: p.1, p.2))
    | 'r' :: rest => (parseStringBody rest).map (fun p => (Char.ofNat 13 :: p.1, p.2))
    | 't' :: rest => (parseStringBody rest).map (fun p => ('\t' :: p.1, p.2))
    | 'u' :: a :: b :: c :: d :: rest =>
      match hexVal a, hexVal b, hexVal c, hexVal d with
      | some ha, some hb, some hc, some hd =>
        (parseStringBody rest).map
          (fun p => (Char.ofNat (((ha * 16 + hb) * 16 + hc) * 16 + hd) :: p.1, p.2))
      | _, _, _, _ => none
    | _ => none
  | c :: rest =>
    if c.toNat < 32 then none
    else (parseStringBody rest).map (fun p => (c :: p.1, p.2))

/-- Take a maximal run of decimal digits, returning their values. -/
def takeDigits : List Char → List Nat × List Char
  | [] => ([], [])
  | c :: cs =>
    if '0' ≤ c ∧ c ≤ '9' then
      let (ds, rest) := takeDigits cs
      ((c.toNat - 48) :: ds, rest)
    else ([], c :: cs)

/-- Fold digit values into a natural number. -/
def digitsToNat (ds : List Nat) : Nat :=
  ds.foldl (fun acc d => acc * 10 + d) 0

/-- Parse a strict JSON number (after an optional leading minus has been
detected by the caller); `neg` records the sign. Returns the exact rational
value of the literal. -/
def parseNumAfterSign (neg : Bool) (cs : List Char) : Option (Rat × List Char) :=
  let (ints, rest1) := takeDigits cs
  match ints with
  | [] => none
  | d0 :: drest =>
    -- strict JSON: no leading zeros on a multi-digit integer part
    if d0 = 0 ∧ drest ≠ [] then none
    else
      let intPart := digitsToNat ints
      let (fracDs, rest2) :=
        match rest1 with
        | '.' :: cs2 =>
          let (fs, r) := takeDigits cs2
          (some fs, r)
        | _ => (none, rest1)
      match fracDs with
      | some [] => none
      | _ =>
        let fs := fracDs.getD []
        let (expVal, rest3) : Option Int × List Char :=
          match rest2 with
          | 'e' :: cs3 =>
            match cs3 with
            | '+' :: cs4 =>
              let (es, r) := takeDigits cs4
              (if es = [] then none else some (Int.ofNat (digitsToNat es)), r)
            | '-' :: cs4 =>
              let (es, r) := takeDigits cs4
              (if es = [] then none else some (-(Int.ofNat (digitsToNat es))), r)
            | _ =>
              let (es, r) := takeDigits cs3
              (if es = [] then none else some (Int.ofNat (digitsToNat es)), r)
          | 'E' :: cs3 =>
            match cs3 with
            | '+' :: cs4 =>
              let (es, r) := takeDigits cs4
              (if es = [] then none else some (Int.ofNat (digitsToNat es)), r)
            | '-' :: cs4 =>
              let (es, r) := takeDigits cs4
              (if es = [] then none else some (-(Int.ofNat (digitsToNat es))), r)
            | _ =>
              let (es, r) := takeDigits cs3
              (if es = [] then none else some (Int.ofNat (digitsToNat es)), r)
          | _ => (some 0, rest2)
        match expVal with
        | none => none
        | some e =>
          let base : Int :=
            (if neg then -1 else 1) * (Int.ofNat (intPart * 10 ^ fs.length + digitsToNat fs))
          let e10 : Int := e - Int.ofNat fs.length
          let q : Rat :=
            if 0 ≤ e10 then ((base * (10 : Int) ^ e10.toNat : Int) : Rat)
            else mkRat base (10 ^ (-e10).toNat)
          some (q, rest3)

/-- Insert a key into an object, overwriting in place on duplicate keys,
as Python dict assignment does during JSON object construction. -/
def objInsert (kvs : List (String × JVal)) (k : String) (v : JVal) :
    List (String × JVal) :=
  match kvs with
  | [] => [(k, v)]
  | (k1, v1) :: t => if k1 = k then (k1, v) :: t else (k1, v1) :: objInsert t k v

mutual

/-- Parse one JSON value (fuel-indexed recursive descent). -/
def parseValue : Nat → List Char → Option (JVal × List Char)
  | 0, _ => none
  | f + 1, cs =>
    match skipWs cs with
    | '{' :: rest => (parseObjItems f [] rest).map (fun p => (JVal.obj p.1, p.2))
    | '[' :: rest => (parseArrItems f rest).map (fun p => (JVal.arr p.1, p.2))
    | '"' :: rest => (parseStringBody rest).map (fun p => (JVal.str (String.mk p.1), p.2))
    | 't' :: rest => (stripTok ['r', 'u', 'e'] rest).map (fun r => (JVal.bool true, r))
    | 'f' :: rest => (stripTok ['a', 'l', 's', 'e'] rest).map (fun r => (JVal.bool false, r))
    | 'n' :: rest => (stripTok ['u', 'l', 'l'] rest).map (fun r => (JVal.null, r))
    | 'N' :: rest => (stripTok ['a', 'N'] rest).map (fun r => (JVal.nan, r))
    | 'I' :: rest =>
      (stripTok ['n', 'f', 'i', 'n', 'i', 't', 'y'] rest).map (fun r => (JVal.inf false, r))
    | '-' :: rest =>
      match rest with
      | 'I' :: rest2 =>
        (stripTok ['n', 'f', 'i', 'n', 'i', 't', 'y'] rest2).map
          (fun r => (JVal.inf true, r))
      | _ => (parseNumAfterSign true rest).map (fun p => (JVal.num p.1, p.2))
    | other => (parseNumAfterSign false other).map (fun p => (JVal.num p.1, p.2))

/-- Parse the items of an array after the opening bracket. -/
def parseArrItems : Nat → List Char → Option (List JVal × List Char)
  | 0, _ => none
  | f + 1, cs =>
    match skipWs cs with
    | ']' :: rest => some ([], rest)
    | other =>
      match parseValue f other with
      | none => none
      | some (v, rest) =>
        match skipWs rest with
        | ',' :: rest2 =>
          match parseArrItemsMore f rest2 with
          | none => none
          | some (vs, rest3) => some (v :: vs, rest3)
        | ']' :: rest2 => some ([v], rest2)
        | _ => none

/-- Parse the items of an array after a comma (at least one more item). -/
def parseArrItemsMore : Nat → List Char → Option (List JVal × List Char)
  | 0, _ => none
  | f + 1, cs =>
    match parseValue f cs with
    | none => none
    | some (v, rest) =>
      match skipWs rest with
      | ',' :: rest2 =>
        match parseArrItemsMore f rest2 with
        | none => none
        | some (vs, rest3) => some (v :: vs, rest3)
      | ']' :: rest2 => some ([v], rest2)
      | _ => none

/-- Parse the members of an object after the opening brace (or after a
comma), accumulating into `acc` with duplicate-key overwrite. -/
def parseObjItems (f : Nat) (acc : List (String × JVal)) (cs : List Char) :
    Option (List (String × JVal) × List Char) :=
  match f with
  | 0 => none
  | f + 1 =>
    match skipWs cs with
    | '}' :: rest => if acc = [] then some ([], rest) else none
    | '"' :: rest =>
      match parseStringBody rest with
      | none => none
      | some (kcs, rest2) =>
        match skipWs rest2 with
        | ':' :: rest3 =>
          match parseValue f rest3 with
          | none => none
          | some (v, rest4) =>
            let acc2 := objInsert acc (String.mk kcs) v
            match skipWs rest4 with
            | ',' :: rest5 => parseObjItems f acc2 rest5
            | '}' :: rest5 => some (acc2, rest5)
            | _ => none
        | _ => none
    | _ => none

end

/-- Model of `json.loads`: parse one JSON document; trailing whitespace only. -/
def jsonParse (s : String) : Option JVal :=
  match parseValue (2 * s.length + 2) s.data with
  | some (v, rest) => if skipWs rest = [] then some v else none
  | none => none

/-- The quote repair `json_str.replace("'", "\"")`: the pattern is the
single character `'`, so the replacement is a per-character substitution. -/
def repairQuotes (s : String) : String :=
  String.mk (s.data.map (fun c => if c = Char.ofNat 39 then '"' else c))

/-- Model of `parse_json_string` (src/data_pipeline.py:40-55): replace single quotes
with double quotes, then `json.loads`; a `json.JSONDecodeError` is caught
and yields the empty list. Applying it to a non-string (the float `NaN`
pandas uses for missing cells, `None`, or a number) raises
`AttributeError` at `json_str.replace`, which the function does not catch. -/
def parse_json_string : PyVal → Except PyErr JVal
  | .str s =>
    match jsonParse (repairQuotes s) with
    | some v => .ok v
    | none => .ok (JVal.arr [])
  | _ => .error (.attributeError "replace")

/-! ### The row loop of `main` (src/data_pipeline.py:97-125)

A source row is a pandas `Series`: a finite map from column label to cell
value; `row[col]` raises `KeyError` on a missing label.  The loop body
appends to four Python lists; an exception leaves all appends made so far
in place, so the embedding threads the partial state alongside the error. -/

/-- One source row: association list from column label to cell value. -/
abbrev Row : Type := List (String × PyVal)

/-- Cell access `row[col]` on a pandas `Series`: the value, or `KeyError`. -/
def Row.get (r : Row) (k : String) : Except PyErr PyVal :=
  match List.lookup k r with
  | some v => .ok v
  | none => .error (.keyError k)

/-- Python `for x in v` over a parsed JSON value: lists iterate elements,
dicts iterate keys, strings iterate one-character strings; everything else
raises `TypeError`. -/
def jvalIter : JVal → Except PyErr (List JVal)
  | .arr xs => .ok xs
  | .obj kvs => .ok (kvs.map (fun kv => JVal.str kv.1))
  | .str s => .ok (s.data.map (fun c => JVal.str (String.mk [c])))
  | _ => .error (.typeError "object is not iterable")

/-- Subscripting `v[k]` on a parsed JSON value with a string key: dict lookup
(`KeyError` on a missing key), `TypeError` otherwise. -/
def JVal.getItem (v : JVal) (k : String) : Except PyErr JVal :=
  match v with
  | .obj kvs =>
    match List.lookup k kvs with
    | some x => .ok x
    | none => .error (.keyError k)
  | .str _ => .error (.typeError "string indices must be integers")
  | .arr _ => .error (.typeError "list indices must be integers")
  | _ => .error (.typeError "object is not subscriptable")

/-- The loop body `gid = g['id']; gname = g['name']` for one entity:
both keys are read before anything is appended. -/
def extractEntity (g : JVal) : Except PyErr (JVal × JVal) := do
  let i ← g.getItem "id"
  let n ← g.getItem "name"
  pure (i, n)

/-- Run `extractEntity` down an entity list, stopping at the first failing
entity: the pairs extracted before the failure, and the error if any. -/
def extractPairs : List JVal → List (JVal × JVal) × Option PyErr
  | [] => ([], none)
  | g :: rest =>
    match extractEntity g with
    | .error e => ([], some e)
    | .ok p =>
      let (ps, e) := extractPairs rest
      (p :: ps, e)

/-- The four accumulators of `main`: entity rows `{'genre_id': gid,
'name': gname}` / `{'company_id': cid, 'name': cname}` are modelled as
`(id, name)` pairs, bridge rows as `(movie_id, entity_id)` pairs. -/
structure PipelineState where
  genres_list : List (JVal × JVal)
  production_companies_list : List (JVal × JVal)
  movie_genres_list : List (PyVal × JVal)
  movie_production_companies_list : List (PyVal × JVal)
deriving DecidableEq

/-- The empty accumulators constructed before the loop. -/
def initState : PipelineState := ⟨[], [], [], []⟩

/-- The genres block of the loop body: parse `row['genres']`, iterate,
extract and append entity and bridge rows. Returns the updated state and
the first exception, if any; appends made before the exception persist. -/
def processGenresVal (mid : PyVal) (v : PyVal) (st : PipelineState) :
    PipelineState × Option PyErr :=
  match parse_json_string v with
  | .error e => (st, some e)
  | .ok data =>
    match jvalIter data with
    | .error e => (st, some e)
    | .ok items =>
      let (ps, e) := extractPairs items
      ({ st with
          genres_list := st.genres_list ++ ps,
          movie_genres_list := st.movie_genres_list ++ ps.map (fun p => (mid, p.1)) }, e)

/-- The production-companies block of the loop body, mirroring
`processGenresVal` on the company accumulators. -/
def processCompaniesVal (mid : PyVal) (v : PyVal) (st : PipelineState) :
    PipelineState × Option PyErr :=
  match parse_json_string v with
  | .error e => (st, some e)
  | .ok data =>
    match jvalIter data with
    | .error e => (st, some e)
    | .ok items =>
      let (ps, e) := extractPairs items
      ({ st with
          production_companies_list := st.production_companies_list ++ ps,
          movie_production_companies_list :=
            st.movie_production_companies_list ++ ps.map (fun p => (mid, p.1)) }, e)

/-- The `try` block of the loop body (src/data_pipeline.py:105-122):
read `row['id']`, process genres, then production companies. An exception
at any point stops the body; state mutated before it persists. -/
def processRowBody (r : Row) (st : PipelineState) : PipelineState × Option PyErr :=
  match r.get "id" with
  | .error e => (st, some e)
  | .ok mid =>
    match r.get "genres" with
    | .error e => (st, some e)
    | .ok gv =>
      match processGenresVal mid gv st with
      | (st1, some e) => (st1, some e)
      | (st1, none) =>
        match r.get "production_companies" with
        | .error e => (st1, some e)
        | .ok cv => processCompaniesVal mid cv st1

/-- A logged per-row error: the row's primary id and the exception,
abstracting `f"Error processing row with movie ID '{row['id']}': {e}"`. -/
abbrev LogLine : Type := PyVal × PyErr

/-- One iteration of the loop including the `except` clause: on an
exception the handler re-reads `row['id']` to format the message; if that
read itself raises, the new exception escapes the handler (right summand),
aborting the whole loop. -/
def processRow (st : PipelineState) (log : List LogLine) (r : Row) :
    (PipelineState × List LogLine) ⊕ (PipelineState × List LogLine × PyErr) :=
  match processRowBody r st with
  | (st2, none) => .inl (st2, log)
  | (st2, some e) =>
    match r.get "id" with
    | .ok mid => .inl (st2, log ++ [(mid, e)])
    | .error e2 => .inr (st2, log, e2)

/-- Result of running the loop: final accumulators, log, and the fatal
exception if one escaped a row's `except` handler. -/
structure LoopResult where
  state : PipelineState
  log : List LogLine
  fatal : Option PyErr
deriving DecidableEq

/-- The `for index, row in movies_df.iterrows()` loop from a given state:
rows are processed in order; a fatal exception stops the loop (it unwinds
to the outer handler, so later rows are never processed). -/
def runRowsFrom (st : PipelineState) (log : List LogLine) : List Row → LoopResult
  | [] => ⟨st, log, none⟩
  | r :: rest =>
    match processRow st log r with
    | .inl (st2, log2) => runRowsFrom st2 log2 rest
    | .inr (st2, log2, e) => ⟨st2, log2, some e⟩

/-- The whole row loop of `main`, from empty accumulators. -/
def runRows (rows : List Row) : LoopResult := runRowsFrom initState [] rows

/-! ### Deduplication (pandas `drop_duplicates`, default `keep='first'`)
and the exported tables (src/data_pipeline.py:127-137) -/

/-- Scan of `DataFrame.duplicated`: keep each element whose key is in
neither `seen` nor an earlier kept element. -/
def dedupByFirstAux {α β : Type} [DecidableEq β] (key : α → β) (seen : List β) :
    List α → List α
  | [] => []
  | a :: l =>
    if key a ∈ seen then dedupByFirstAux key seen l
    else a :: dedupByFirstAux key (key a :: seen) l

/-- Model of `DataFrame.drop_duplicates(subset=key columns)` with the default
`keep='first'`: keep each row whose key has not occurred earlier. -/
def dedupByFirst {α β : Type} [DecidableEq β] (key : α → β) (l : List α) : List α :=
  dedupByFirstAux key [] l

/-- Model of `DataFrame.drop_duplicates()` over all columns. -/
def dedupFirst {α : Type} [DecidableEq α] (l : List α) : List α :=
  dedupByFirst id l

/-- Export step `genres_df = pd.DataFrame(genres_list).drop_duplicates()`; the
following `set_index('genre_id')` keeps all rows, so the exported table
is exactly this sequence. -/
def finalizeGenres (st : PipelineState) : List (JVal × JVal) :=
  dedupFirst st.genres_list

/-- Export step `production_companies_df = ....drop_duplicates().set_index(...)`. -/
def finalizeCompanies (st : PipelineState) : List (JVal × JVal) :=
  dedupFirst st.production_companies_list

/-- Export step `movie_genres_df = pd.DataFrame(movie_genres_list).drop_duplicates()`. -/
def finalizeMovieGenres (st : PipelineState) : List (PyVal × JVal) :=
  dedupFirst st.movie_genres_list

/-- Export step `movie_production_companies_df = ....drop_duplicates()`. -/
def finalizeMovieCompanies (st : PipelineState) : List (PyVal × JVal) :=
  dedupFirst st.movie_production_companies_list

/-! ### The fact table (src/data_pipeline.py:132-137)

`movies_df[['id','title','release_date','budget','revenue','popularity']]`
projects the fixed column set, `pd.to_datetime(..., errors='coerce').dt.year`
derives the year (`NaT`, hence an absent year, on anything unparseable),
and `drop_duplicates(subset=['movie_id'])` keeps the first row per id. -/

/-- Number of days in a month of a (proleptic Gregorian) year. -/
def daysInMonth (y m : Nat) : Nat :=
  if m = 2 then
    if y % 4 = 0 ∧ (y % 100 ≠ 0 ∨ y % 400 = 0) then 29 else 28
  else if m = 4 ∨ m = 6 ∨ m = 9 ∨ m = 11 then 30
  else 31

/-- Modelled date parsing for `pd.to_datetime(s, errors='coerce')`,
restricted to the dataset's ISO `YYYY-MM-DD` layout: a valid calendar date
yields its 4-digit year; anything else (empty string included) is `NaT`,
i.e. `none`. -/
def parseDateYear (s : String) : Option Int :=
  match s.data with
  | [y1, y2, y3, y4, '-', m1, m2, '-', d1, d2] =>
    if y1.isDigit ∧ y2.isDigit ∧ y3.isDigit ∧ y4.isDigit ∧
        m1.isDigit ∧ m2.isDigit ∧ d1.isDigit ∧ d2.isDigit then
      let y := ((((y1.toNat - 48) * 10 + (y2.toNat - 48)) * 10 +
        (y3.toNat - 48)) * 10 + (y4.toNat - 48))
      let m := (m1.toNat - 48) * 10 + (m2.toNat - 48)
      let d := (d1.toNat - 48) * 10 + (d2.toNat - 48)
      if 1 ≤ m ∧ m ≤ 12 ∧ 1 ≤ d ∧ d ≤ daysInMonth y m then
        some (Int.ofNat y)
      else none
    else none
  | _ => none

/-- Year accessor `.dt.year` of the coerced release-date cell: only a parseable string
yields a year; a missing value (`NaN`) or other non-string yields none. -/
def toYear : PyVal → Option Int
  | .str s => parseDateYear s
  | _ => none

/-- One row of the exported `movies.csv` table. -/
structure FactRow where
  movie_id : PyVal
  title : PyVal
  release_date : PyVal
  budget : PyVal
  revenue : PyVal
  popularity : PyVal
  year : Option Int
deriving DecidableEq

/-- Project one source row onto the fact columns and derive the year
(`KeyError` if a projected column is absent, which in pandas surfaces once
at the column projection and aborts the run). -/
def mkFactRow (r : Row) : Except PyErr FactRow :=
  match r.get "id" with
  | .error e => .error e
  | .ok i =>
    match r.get "title" with
    | .error e => .error e
    | .ok t =>
      match r.get "release_date" with
      | .error e => .error e
      | .ok rd =>
        match r.get "budget" with
        | .error e => .error e
        | .ok b =>
          match r.get "revenue" with
          | .error e => .error e
          | .ok rev =>
            match r.get "popularity" with
            | .error e => .error e
            | .ok pop => .ok ⟨i, t, rd, b, rev, pop, toYear rd⟩

/-- The fact-table construction: projection, year derivation, then
`drop_duplicates(subset=['movie_id'])` with first-occurrence-wins. -/
def buildFact (rows : List Row) : Except PyErr (List FactRow) := do
  let projected ← rows.mapM mkFactRow
  pure (dedupByFirst (fun f => f.movie_id) projected)

/-! ### Concrete inputs used by counterexamples and witnesses -/

/-! ### Referential closure of the bridge accumulators (for C9) -/

/-- Every entity id in a bridge accumulator has a registered entity with
that id in the corresponding registry accumulator. -/
def bridgeClosed (st : PipelineState) : Prop :=
  (∀ p ∈ st.movie_genres_list, ∃ n, (p.2, n) ∈ st.genres_list) ∧
  (∀ p ∈ st.movie_production_companies_list,
    ∃ n, (p.2, n) ∈ st.production_companies_list)

/-! ### Concrete inputs used by counterexamples and witnesses -/

/-- The single-quote character, as a one-character string. -/
def squote : String := String.mk [Char.ofNat 39]

/-- Wrap a string in single quotes. -/
def qwrap (s : String) : String := squote ++ s ++ squote

/-- A pseudo-JSON genres cell `[{'id': 5, 'name': 'A'}]`. -/
def c2GenStrA : String :=
  "[\x7b" ++ qwrap "id" ++ ": 5, " ++ qwrap "name" ++ ": " ++ qwrap "A" ++ "\x7d]"

/-- A pseudo-JSON genres cell `[{'id': 5, 'name': 'B'}]`: same genre id as
`c2GenStrA`, different name. -/
def c2GenStrB : String :=
  "[\x7b" ++ qwrap "id" ++ ": 5, " ++ qwrap "name" ++ ": " ++ qwrap "B" ++ "\x7d]"

/-- A source row recording genre id 5 under the name `A`. -/
def c2RowA : Row :=
  [("id", PyVal.int 1), ("genres", PyVal.str c2GenStrA),
   ("production_companies", PyVal.str "[]")]

/-- A source row recording genre id 5 under the name `B`. -/
def c2RowB : Row :=
  [("id", PyVal.int 2), ("genres", PyVal.str c2GenStrB),
   ("production_companies", PyVal.str "[]")]

/-- A genres cell `[{'id': 1, 'name': 'A'}, {'id': 2}]`: the second entity
lacks the `name` key. -/
def c3GenStr : String :=
  "[\x7b" ++ qwrap "id" ++ ": 1, " ++ qwrap "name" ++ ": " ++ qwrap "A" ++ "\x7d, \x7b" ++
    qwrap "id" ++ ": 2\x7d]"

/-- A well-formed companies cell `[{'id': 3, 'name': 'P'}]`. -/
def c3CompStr : String :=
  "[\x7b" ++ qwrap "id" ++ ": 3, " ++ qwrap "name" ++ ": " ++ qwrap "P" ++ "\x7d]"

/-- A row whose genres field fails mid-list while its companies field is
perfectly well formed. -/
def c3Row : Row :=
  [("id", PyVal.int 7), ("genres", PyVal.str c3GenStr),
   ("production_companies", PyVal.str c3CompStr)]

/-- A row with no `id` cell at all. -/
def c4RowNoId : Row :=
  [("genres", PyVal.str "[]"), ("production_companies", PyVal.str "[]")]

/-- A well-formed genres cell `[{'id': 6, 'name': 'D'}]`. -/
def c4GenStr : String :=
  "[\x7b" ++ qwrap "id" ++ ": 6, " ++ qwrap "name" ++ ": " ++ qwrap "D" ++ "\x7d]"

/-- A perfectly well-formed row scheduled after the broken one. -/
def c4GoodRow : Row :=
  [("id", PyVal.int 10), ("genres", PyVal.str c4GenStr),
   ("production_companies", PyVal.str "[]")]

/-- A row whose genres cell is the missing-value float `NaN`. -/
def c4FailRow : Row :=
  [("id", PyVal.int 9), ("genres", PyVal.nan),
   ("production_companies", PyVal.str "[]")]

/-- A genres cell `[{'id': 1, 'name': 'A'}, {'id': 2}]` whose second
entity lacks `name` (C5's failing field). -/
def c5GenStr : String :=
  "[\x7b" ++ qwrap "id" ++ ": 1, " ++ qwrap "name" ++ ": " ++ qwrap "A" ++ "\x7d, \x7b" ++
    qwrap "id" ++ ": 2\x7d]"

/-- The row C5's counterexample runs on. -/
def c5Row : Row :=
  [("id", PyVal.int 7), ("genres", PyVal.str c5GenStr),
   ("production_companies", PyVal.str "[]")]

/-- The parsed entity list of `c5GenStr`. -/
def c5Items : List JVal :=
  [JVal.obj [("id", JVal.num 1), ("name", JVal.str "A")],
   JVal.obj [("id", JVal.num 2)]]

/-- First source row of the C6 witness, id 1. -/
def c6Row1 : Row :=
  [("id", PyVal.int 1), ("title", PyVal.str "T1"),
   ("release_date", PyVal.str "1995-10-30"), ("budget", PyVal.int 5),
   ("revenue", PyVal.int 6), ("popularity", PyVal.int 8)]

/-- Second source row of the C6 witness: same id 1, different fields. -/
def c6Row2 : Row :=
  [("id", PyVal.int 1), ("title", PyVal.str "T2"),
   ("release_date", PyVal.str "1999-01-01"), ("budget", PyVal.int 7),
   ("revenue", PyVal.int 8), ("popularity", PyVal.int 9)]

/-- The projection of `[c6Row1, c6Row2]` onto the fact columns. -/
def c6Projected : List FactRow :=
  [⟨PyVal.int 1, PyVal.str "T1", PyVal.str "1995-10-30", PyVal.int 5,
    PyVal.int 6, PyVal.int 8, some 1995⟩,
   ⟨PyVal.int 1, PyVal.str "T2", PyVal.str "1999-01-01", PyVal.int 7,
    PyVal.int 8, PyVal.int 9, some 1999⟩]

/-- The row C8's witness projects. -/
def c8Row : Row :=
  [("id", PyVal.int 2), ("title", PyVal.str "T"),
   ("release_date", PyVal.str "1995-10-30"), ("budget", PyVal.int 0),
   ("revenue", PyVal.int 0), ("popularity", PyVal.int 0)]

/-- The fact row projected from `c8Row`. -/
def c8Fact : FactRow :=
  ⟨PyVal.int 2, PyVal.str "T", PyVal.str "1995-10-30", PyVal.int 0,
   PyVal.int 0, PyVal.int 0, some 1995⟩

/-- A pseudo-JSON cell holding a single object, `{'a': 1}`. -/
def c10ObjStr : String := "\x7b" ++ qwrap "a" ++ ": 1\x7d"

/-! ### General facts about `drop_duplicates` -/

theorem dedupByFirstAux_sublist {α β : Type} [DecidableEq β] (key : α → β) :
    ∀ (seen : List β) (l : List α), (dedupByFirstAux key seen l).Sublist l
  | _, [] => List.Sublist.slnil
  | seen, a :: l => by
    simp only [dedupByFirstAux]
    split
    · exact (dedupByFirstAux_sublist key seen l).cons a
    · exact (dedupByFirstAux_sublist key (key a :: seen) l).cons₂ a

theorem mem_of_mem_dedupByFirstAux {α β : Type} [DecidableEq β] (key : α → β)
    (seen : List β) (l : List α) {x : α} (h : x ∈ dedupByFirstAux key seen l) : x ∈ l :=
  (dedupByFirstAux_sublist key seen l).mem h

theorem key_notMem_seen_of_mem_dedupByFirstAux {α β : Type} [DecidableEq β] (key : α → β) :
    ∀ (seen : List β) (l : List α) (x : α), x ∈ dedupByFirstAux key seen l → key x ∉ seen
  | seen, a :: l, x, h => by
    simp only [dedupByFirstAux] at h
    split at h
    · exact key_notMem_seen_of_mem_dedupByFirstAux key seen l x h
    · rcases List.mem_cons.mp h with rfl | h2
      · assumption
      · have := key_notMem_seen_of_mem_dedupByFirstAux key (key a :: seen) l x h2
        exact fun hc => this (List.mem_cons_of_mem _ hc)

theorem keys_nodup_dedupByFirstAux {α β : Type} [DecidableEq β] (key : α → β) :
    ∀ (seen : List β) (l : List α), ((dedupByFirstAux key seen l).map key).Nodup
  | _, [] => List.nodup_nil
  | seen, a :: l => by
    simp only [dedupByFirstAux]
    split
    · exact keys_nodup_dedupByFirstAux key seen l
    · refine List.nodup_cons.mpr ⟨?_, keys_nodup_dedupByFirstAux key (key a :: seen) l⟩
      intro hmem
      rcases List.mem_map.mp hmem with ⟨x, hx, hkx⟩
      exact key_notMem_seen_of_mem_dedupByFirstAux key (key a :: seen) l x hx
        (hkx ▸ List.mem_cons_self _ _)

theorem exists_mem_dedupByFirstAux_of_mem {α β : Type} [DecidableEq β] (key : α → β) :
    ∀ (seen : List β) (l : List α) (x : α), x ∈ l → key x ∉ seen →
      ∃ y ∈ dedupByFirstAux key seen l, key y = key x
  | seen, a :: l, x, hx, hseen => by
    simp only [dedupByFirstAux]
    rcases List.mem_cons.mp hx with rfl | hx2
    · split
      · exact absurd (by assumption) hseen
      · exact ⟨x, List.mem_cons_self _ _, rfl⟩
    · split
      · exact exists_mem_dedupByFirstAux_of_mem key seen l x hx2 hseen
      · by_cases hk : key x = key a
        · exact ⟨a, List.mem_cons_self _ _, hk.symm⟩
        · rcases exists_mem_dedupByFirstAux_of_mem key (key a :: seen) l x hx2
            (by simpa [hk] using hseen) with ⟨y, hy, hky⟩
          exact ⟨y, List.mem_cons_of_mem _ hy, hky⟩

theorem firstOcc_of_mem_dedupByFirstAux {α β : Type} [DecidableEq β] (key : α → β) :
    ∀ (seen : List β) (l : List α) (y : α), y ∈ dedupByFirstAux key seen l →
      ∃ l1 l2, l = l1 ++ y :: l2 ∧ ∀ z ∈ l1, key z ≠ key y
  | seen, a :: l, y, h => by
    simp only [dedupByFirstAux] at h
    split at h
    · rcases firstOcc_of_mem_dedupByFirstAux key seen l y h with ⟨l1, l2, rfl, hl1⟩
      have hy : key y ∉ seen := key_notMem_seen_of_mem_dedupByFirstAux key seen _ y h
      refine ⟨a :: l1, l2, rfl, ?_⟩
      intro z hz
      rcases List.mem_cons.mp hz with rfl | hz2
      · intro hc; exact hy (hc ▸ (by assumption))
      · exact hl1 z hz2
    · rcases List.mem_cons.mp h with rfl | h2
      · exact ⟨[], l, rfl, by simp⟩
      · rcases firstOcc_of_mem_dedupByFirstAux key (key a :: seen) l y h2 with
          ⟨l1, l2, rfl, hl1⟩
        have hy : key y ∉ key a :: seen :=
          key_notMem_seen_of_mem_dedupByFirstAux key (key a :: seen) _ y h2
        refine ⟨a :: l1, l2, rfl, ?_⟩
        intro z hz
        rcases List.mem_cons.mp hz with rfl | hz2
        · exact fun hc => hy (hc ▸ List.mem_cons_self _ _)
        · exact hl1 z hz2

theorem dedupByFirst_sublist {α β : Type} [DecidableEq β] (key : α → β) (l : List α) :
    (dedupByFirst key l).Sublist l :=
  dedupByFirstAux_sublist key [] l

theorem keys_nodup_dedupByFirst {α β : Type} [DecidableEq β] (key : α → β) (l : List α) :
    ((dedupByFirst key l).map key).Nodup :=
  keys_nodup_dedupByFirstAux key [] l

theorem exists_mem_dedupByFirst_of_mem {α β : Type} [DecidableEq β] (key : α → β)
    (l : List α) (x : α) (hx : x ∈ l) : ∃ y ∈ dedupByFirst key l, key y = key x :=
  exists_mem_dedupByFirstAux_of_mem key [] l x hx (List.not_mem_nil _)

theorem firstOcc_of_mem_dedupByFirst {α β : Type} [DecidableEq β] (key : α → β)
    (l : List α) (y : α) (h : y ∈ dedupByFirst key l) :
    ∃ l1 l2, l = l1 ++ y :: l2 ∧ ∀ z ∈ l1, key z ≠ key y :=
  firstOcc_of_mem_dedupByFirstAux key [] l y h

theorem dedupFirst_nodup {α : Type} [DecidableEq α] (l : List α) : (dedupFirst l).Nodup := by
  have := keys_nodup_dedupByFirst (id : α → α) l
  simpa using this

theorem mem_dedupFirst {α : Type} [DecidableEq α] (l : List α) (x : α) :
    x ∈ dedupFirst l ↔ x ∈ l := by
  constructor
  · exact fun h => (dedupByFirst_sublist id l).mem h
  · intro hx
    rcases exists_mem_dedupByFirst_of_mem id l x hx with ⟨y, hy, hxy⟩
    simpa [show y = x from hxy] using hy

theorem dedupFirst_sublist {α : Type} [DecidableEq α] (l : List α) :
    (dedupFirst l).Sublist l :=
  dedupByFirst_sublist id l

theorem firstOcc_of_mem_dedupFirst {α : Type} [DecidableEq α] (l : List α) (y : α)
    (h : y ∈ dedupFirst l) : ∃ l1 l2, l = l1 ++ y :: l2 ∧ y ∉ l1 := by
  rcases firstOcc_of_mem_dedupByFirst id l y h with ⟨l1, l2, hsplit, hl1⟩
  exact ⟨l1, l2, hsplit, fun hc => hl1 y hc rfl⟩

/-! ### Structural facts about the row-loop steps -/

theorem processGenresVal_companies_unchanged (mid v : PyVal) (st : PipelineState) :
    (processGenresVal mid v st).1.production_companies_list =
      st.production_companies_list ∧
    (processGenresVal mid v st).1.movie_production_companies_list =
      st.movie_production_companies_list := by
  cases hp : parse_json_string v with
  | error e => simp [processGenresVal, hp]
  | ok data =>
    cases hi : jvalIter data with
    | error e => simp [processGenresVal, hp, hi]
    | ok items =>
      rcases hx : extractPairs items with ⟨ps, e⟩
      simp [processGenresVal, hp, hi, hx]

theorem processCompaniesVal_genres_unchanged (mid v : PyVal) (st : PipelineState) :
    (processCompaniesVal mid v st).1.genres_list = st.genres_list ∧
    (processCompaniesVal mid v st).1.movie_genres_list = st.movie_genres_list := by
  cases hp : parse_json_string v with
  | error e => simp [processCompaniesVal, hp]
  | ok data =>
    cases hi : jvalIter data with
    | error e => simp [processCompaniesVal, hp, hi]
    | ok items =>
      rcases hx : extractPairs items with ⟨ps, e⟩
      simp [processCompaniesVal, hp, hi, hx]

theorem processGenresVal_eq (mid v : PyVal) (st : PipelineState) (data : JVal)
    (items : List JVal) (hp : parse_json_string v = .ok data)
    (hi : jvalIter data = .ok items) :
    processGenresVal mid v st =
      ({ st with
          genres_list := st.genres_list ++ (extractPairs items).1,
          movie_genres_list :=
            st.movie_genres_list ++ (extractPairs items).1.map (fun p => (mid, p.1)) },
        (extractPairs items).2) := by
  rcases hx : extractPairs items with ⟨ps, e⟩
  simp [processGenresVal, hp, hi, hx]

theorem processCompaniesVal_eq (mid v : PyVal) (st : PipelineState) (data : JVal)
    (items : List JVal) (hp : parse_json_string v = .ok data)
    (hi : jvalIter data = .ok items) :
    processCompaniesVal mid v st =
      ({ st with
          production_companies_list :=
            st.production_companies_list ++ (extractPairs items).1,
          movie_production_companies_list :=
            st.movie_production_companies_list ++
              (extractPairs items).1.map (fun p => (mid, p.1)) },
        (extractPairs items).2) := by
  rcases hx : extractPairs items with ⟨ps, e⟩
  simp [processCompaniesVal, hp, hi, hx]

/-- When the genres block raises, `processRowBody` stops there: it reports
that error and the production-companies accumulators are untouched. -/
theorem processRowBody_of_genres_error (r : Row) (st : PipelineState) (mid gv : PyVal)
    (e : PyErr) (h1 : r.get "id" = .ok mid) (h2 : r.get "genres" = .ok gv)
    (h3 : (processGenresVal mid gv st).2 = some e) :
    processRowBody r st = ((processGenresVal mid gv st).1, some e) := by
  rcases hg : processGenresVal mid gv st with ⟨st1, oe⟩
  rw [hg] at h3
  simp only at h3
  subst h3
  simp [processRowBody, h1, h2, hg]

/-- Decomposition of a failing `extractPairs` run: the items split into a
cleanly-extracted prefix, the failing entity, and an unprocessed suffix;
the extracted pairs are exactly those of the prefix. -/
theorem extractPairs_error_decomp :
    ∀ (items : List JVal) (e : PyErr), (extractPairs items).2 = some e →
      ∃ pre g suf, items = pre ++ g :: suf ∧ extractEntity g = .error e ∧
        (∀ x ∈ pre, ∃ p, extractEntity x = .ok p) ∧
        (extractPairs items).1 = pre.filterMap (fun x => (extractEntity x).toOption)
  | [], e, h => by simp [extractPairs] at h
  | g :: rest, e, h => by
    cases hg : extractEntity g with
    | error e2 =>
      have hh : (extractPairs (g :: rest)) = ([], some e2) := by
        simp [extractPairs, hg]
      rw [hh] at h
      simp only [Option.some.injEq] at h
      subst h
      exact ⟨[], g, rest, rfl, hg, by simp, by simp [hh]⟩
    | ok p =>
      rcases hrest : extractPairs rest with ⟨ps, oe⟩
      have hh : extractPairs (g :: rest) = (p :: ps, oe) := by
        simp [extractPairs, hg, hrest]
      rw [hh] at h
      simp only at h
      rcases extractPairs_error_decomp rest e (by rw [hrest]; exact h) with
        ⟨pre, g2, suf, hsplit, hg2, hpre, hps⟩
      refine ⟨g :: pre, g2, suf, by simp [hsplit], hg2, ?_, ?_⟩
      · intro x hx
        rcases List.mem_cons.mp hx with rfl | hx2
        · exact ⟨p, hg⟩
        · exact hpre x hx2
      · rw [hrest] at hps
        simp only at hps
        simp [hh, List.filterMap_cons, hg, Except.toOption, hps]

theorem bridgeClosed_init : bridgeClosed initState := by
  constructor <;> simp [initState]

theorem bridgeClosed_processGenresVal (mid v : PyVal) (st : PipelineState)
    (h : bridgeClosed st) : bridgeClosed (processGenresVal mid v st).1 := by
  cases hp : parse_json_string v with
  | error e => simpa [processGenresVal, hp] using h
  | ok data =>
    cases hi : jvalIter data with
    | error e => simpa [processGenresVal, hp, hi] using h
    | ok items =>
      rcases hx : extractPairs items with ⟨ps, e⟩
      refine ⟨?_, ?_⟩ <;> simp only [processGenresVal, hp, hi, hx]
      · intro p hp2
        rcases List.mem_append.mp hp2 with hold | hnew
        · rcases h.1 p hold with ⟨n, hn⟩
          exact ⟨n, List.mem_append_left _ hn⟩
        · rcases List.mem_map.mp hnew with ⟨q, hq, rfl⟩
          exact ⟨q.2, List.mem_append_right _ (by simpa using hq)⟩
      · exact h.2

theorem bridgeClosed_processCompaniesVal (mid v : PyVal) (st : PipelineState)
    (h : bridgeClosed st) : bridgeClosed (processCompaniesVal mid v st).1 := by
  cases hp : parse_json_string v with
  | error e => simpa [processCompaniesVal, hp] using h
  | ok data =>
    cases hi : jvalIter data with
    | error e => simpa [processCompaniesVal, hp, hi] using h
    | ok items =>
      rcases hx : extractPairs items with ⟨ps, e⟩
      refine ⟨?_, ?_⟩ <;> simp only [processCompaniesVal, hp, hi, hx]
      · exact h.1
      · intro p hp2
        rcases List.mem_append.mp hp2 with hold | hnew
        · rcases h.2 p hold with ⟨n, hn⟩
          exact ⟨n, List.mem_append_left _ hn⟩
        · rcases List.mem_map.mp hnew with ⟨q, hq, rfl⟩
          exact ⟨q.2, List.mem_append_right _ (by simpa using hq)⟩

theorem bridgeClosed_processRowBody (r : Row) (st : PipelineState)
    (h : bridgeClosed st) : bridgeClosed (processRowBody r st).1 := by
  cases hid : r.get "id" with
  | error e => simpa [processRowBody, hid] using h
  | ok mid =>
    cases hgv : r.get "genres" with
    | error e => simpa [processRowBody, hid, hgv] using h
    | ok gv =>
      rcases hg : processGenresVal mid gv st with ⟨st1, oe⟩
      have h1 : bridgeClosed st1 := by
        have := bridgeClosed_processGenresVal mid gv st h
        rwa [hg] at this
      cases oe with
      | some e => simpa [processRowBody, hid, hgv, hg] using h1
      | none =>
        cases hcv : r.get "production_companies" with
        | error e => simpa [processRowBody, hid, hgv, hg, hcv] using h1
        | ok cv =>
          have := bridgeClosed_processCompaniesVal mid cv st1 h1
          simpa [processRowBody, hid, hgv, hg, hcv] using this

/-- After a caught row error whose primary id is readable, the loop logs
`(id, error)` and continues with the remaining rows from the partial state. -/
theorem runRowsFrom_cons_of_error (r : Row) (rest : List Row) (st : PipelineState)
    (log : List LogLine) (mid : PyVal) (e : PyErr)
    (hid : r.get "id" = .ok mid) (herr : (processRowBody r st).2 = some e) :
    processRow st log r = .inl ((processRowBody r st).1, log ++ [(mid, e)]) ∧
    runRowsFrom st log (r :: rest) =
      runRowsFrom (processRowBody r st).1 (log ++ [(mid, e)]) rest := by
  rcases hb : processRowBody r st with ⟨st2, oe⟩
  rw [hb] at herr
  simp only at herr
  subst herr
  constructor
  · simp [processRow, hb, hid]
  · simp [runRowsFrom, processRow, hb, hid]

theorem bridgeClosed_runRowsFrom :
    ∀ (rows : List Row) (st : PipelineState) (log : List LogLine),
      bridgeClosed st → bridgeClosed (runRowsFrom st log rows).state
  | [], _, _, h => h
  | r :: rest, st, log, h => by
    have hbody := bridgeClosed_processRowBody r st h
    rcases hb : processRowBody r st with ⟨st2, oe⟩
    rw [hb] at hbody
    cases oe with
    | none =>
      have heq : runRowsFrom st log (r :: rest) = runRowsFrom st2 log rest := by
        simp [runRowsFrom, processRow, hb]
      rw [heq]
      exact bridgeClosed_runRowsFrom rest st2 log hbody
    | some e =>
      cases hid : r.get "id" with
      | ok mid =>
        have heq : runRowsFrom st log (r :: rest) =
            runRowsFrom st2 (log ++ [(mid, e)]) rest := by
          simp [runRowsFrom, processRow, hb, hid]
        rw [heq]
        exact bridgeClosed_runRowsFrom rest st2 _ hbody
      | error e2 =>
        have heq : (runRowsFrom st log (r :: rest)).state = st2 := by
          simp [runRowsFrom, processRow, hb, hid]
        rw [heq]
        exact hbody


/-! ### The claims -/

/-- C1 (counterexample): on the missing-cell value `NaN` — the "null
input" case — `parse_json_string` raises `AttributeError` instead of
returning the empty sequence, because only `json.JSONDecodeError` is
caught and `NaN.replace` fails before parsing begins. -/
theorem c1_counterexample :
    parse_json_string PyVal.nan = .error (PyErr.attributeError "replace") ∧
    parse_json_string PyVal.nan ≠ .ok (JVal.arr []) := by decide

/-- C1 (amended): for every input *string*, `parse_json_string` replaces
every single quote with a double quote and strictly JSON-parses the
result; if that parse fails for any reason it returns the empty sequence
without raising. (Null/`NaN`/non-string input instead raises
`AttributeError`, which escapes to the per-row handler.) -/
theorem c1_amended (s : String) (h : jsonParse (repairQuotes s) = none) :
    parse_json_string (PyVal.str s) = .ok (JVal.arr []) := by
  simp [parse_json_string, h]

/-- Witness for C1: the spec's own malformed example, unquoted keys. -/
theorem c1_witness :
    parse_json_string (PyVal.str "[\x7bid: 16, name: Animation\x7d]") = .ok (JVal.arr []) :=
  c1_amended _ (by decide)

/-- C2 (counterexample): `drop_duplicates()` on the genres frame drops
exact duplicate `(id, name)` rows only; genre id 5 recorded under the
names `A` and `B` survives twice, so the exported table does contain a
duplicate entity id. -/
theorem c2_counterexample :
    finalizeGenres (runRows [c2RowA, c2RowB]).state =
      [(JVal.num 5, JVal.str "A"), (JVal.num 5, JVal.str "B")] ∧
    ¬ ((finalizeGenres (runRows [c2RowA, c2RowB]).state).map Prod.fst).Nodup := by
  decide

/-- C2 (amended): each exported entity table keeps every recorded exact
`(id, name)` pair exactly once, in first-seen order (each survivor is the
first occurrence of that pair); an id recorded with several distinct names
keeps one row per distinct name, so duplicate ids can survive. -/
theorem c2_amended (rows : List Row) :
    (finalizeGenres (runRows rows).state).Nodup ∧
    (∀ p, p ∈ finalizeGenres (runRows rows).state ↔
      p ∈ (runRows rows).state.genres_list) ∧
    (finalizeGenres (runRows rows).state).Sublist (runRows rows).state.genres_list ∧
    (∀ p ∈ finalizeGenres (runRows rows).state,
      ∃ l1 l2, (runRows rows).state.genres_list = l1 ++ p :: l2 ∧ p ∉ l1) ∧
    (finalizeCompanies (runRows rows).state).Nodup ∧
    (∀ p, p ∈ finalizeCompanies (runRows rows).state ↔
      p ∈ (runRows rows).state.production_companies_list) ∧
    (finalizeCompanies (runRows rows).state).Sublist
      (runRows rows).state.production_companies_list ∧
    (∀ p ∈ finalizeCompanies (runRows rows).state,
      ∃ l1 l2, (runRows rows).state.production_companies_list = l1 ++ p :: l2 ∧
        p ∉ l1) :=
  ⟨dedupFirst_nodup _, fun p => mem_dedupFirst _ p, dedupFirst_sublist _,
    fun p hp => firstOcc_of_mem_dedupFirst _ p hp,
    dedupFirst_nodup _, fun p => mem_dedupFirst _ p, dedupFirst_sublist _,
    fun p hp => firstOcc_of_mem_dedupFirst _ p hp⟩

/-- C3 (counterexample): on `c3Row` the malformed second genre raises
`KeyError('name')`, and the row-level handler then skips the rest of the
row: the perfectly well-formed production-companies field contributes
nothing, although processed in isolation it would contribute `(3, P)`. -/
theorem c3_counterexample :
    (runRows [c3Row]).state.production_companies_list = [] ∧
    (runRows [c3Row]).state.movie_production_companies_list = [] ∧
    (runRows [c3Row]).log = [(PyVal.int 7, PyErr.keyError "name")] ∧
    (processCompaniesVal (PyVal.int 7) (PyVal.str c3CompStr) initState).1.production_companies_list =
      [(JVal.num 3, JVal.str "P")] := by decide

/-- C3 (amended): a parsed genre entity missing `id` or `name` abandons
the whole remainder of the row, not just the genres field: the exception
propagates to the row-level handler, so the sibling production-companies
field of the same row is never processed and contributes nothing. (Only a
field processed *before* the failing one — genres before a companies
failure — keeps its contributions.) -/
theorem c3_amended (r : Row) (st : PipelineState) (mid gv : PyVal) (e : PyErr)
    (h1 : r.get "id" = .ok mid) (h2 : r.get "genres" = .ok gv)
    (h3 : (processGenresVal mid gv st).2 = some e) :
    (processRowBody r st).1.production_companies_list =
      st.production_companies_list ∧
    (processRowBody r st).1.movie_production_companies_list =
      st.movie_production_companies_list ∧
    (processRowBody r st).2 = some e := by
  have hb := processRowBody_of_genres_error r st mid gv e h1 h2 h3
  rw [hb]
  have hc := processGenresVal_companies_unchanged mid gv st
  exact ⟨hc.1, hc.2, rfl⟩

/-- Witness for C3 at the concrete row `c3Row`. -/
theorem c3_witness :
    (processRowBody c3Row initState).1.production_companies_list =
      initState.production_companies_list ∧
    (processRowBody c3Row initState).1.movie_production_companies_list =
      initState.movie_production_companies_list ∧
    (processRowBody c3Row initState).2 = some (PyErr.keyError "name") :=
  c3_amended c3Row initState (PyVal.int 7) (PyVal.str c3GenStr)
    (PyErr.keyError "name") (by decide) (by decide) (by decide)

/-- C4 (counterexample): when the row's primary id itself is missing, the
handler's log line re-reads `row['id']` and raises `KeyError('id')` out of
the `except` block: nothing is logged for the row, the loop aborts
fatally, and the subsequent well-formed row (which alone would register
genre `(6, D)`) is never processed. -/
theorem c4_counterexample :
    (runRows [c4RowNoId, c4GoodRow]).fatal = some (PyErr.keyError "id") ∧
    (runRows [c4RowNoId, c4GoodRow]).log = [] ∧
    (runRows [c4RowNoId, c4GoodRow]).state.genres_list = [] ∧
    (runRows [c4GoodRow]).state.genres_list = [(JVal.num 6, JVal.str "D")] := by
  decide

/-- C4 (amended): an exception while normalizing a row is caught at row
granularity, recorded as a log line carrying the row's primary identifier
and the underlying cause, and the loop continues with the remaining rows —
*provided* the primary id cell is readable. (If reading `row['id']` itself
raises, the handler's message formatting re-raises and the loop aborts, as
the counterexample shows.) -/
theorem c4_amended (r : Row) (rest : List Row) (st : PipelineState)
    (log : List LogLine) (mid : PyVal) (e : PyErr)
    (hid : r.get "id" = .ok mid) (herr : (processRowBody r st).2 = some e) :
    processRow st log r = .inl ((processRowBody r st).1, log ++ [(mid, e)]) ∧
    runRowsFrom st log (r :: rest) =
      runRowsFrom (processRowBody r st).1 (log ++ [(mid, e)]) rest :=
  runRowsFrom_cons_of_error r rest st log mid e hid herr

/-- Witness for C4: the `NaN` genres cell raises `AttributeError`, which
is logged with the row id 9 and the loop goes on. -/
theorem c4_witness :
    processRow initState [] c4FailRow =
      .inl ((processRowBody c4FailRow initState).1,
        [] ++ [(PyVal.int 9, PyErr.attributeError "replace")]) ∧
    runRowsFrom initState [] [c4FailRow] =
      runRowsFrom (processRowBody c4FailRow initState).1
        ([] ++ [(PyVal.int 9, PyErr.attributeError "replace")]) [] :=
  c4_amended c4FailRow [] initState [] (PyVal.int 9)
    (PyErr.attributeError "replace") (by decide) (by decide)

/-- C5 (counterexample): the row fails with `KeyError('name')` on its
second genre — a `RowProcessingError` — yet the first genre's entity and
association rows, appended before the exception, remain in the
accumulators: the failing field's contributions are *not* entirely
omitted. -/
theorem c5_counterexample :
    (runRows [c5Row]).log = [(PyVal.int 7, PyErr.keyError "name")] ∧
    (runRows [c5Row]).state.genres_list = [(JVal.num 1, JVal.str "A")] ∧
    (runRows [c5Row]).state.movie_genres_list = [(PyVal.int 7, JVal.num 1)] ∧
    (runRows [c5Row]).fatal = none := by decide

/-- C5 (amended): on a row error inside the genres field, the entities
fully extracted before the failure point are retained — the accumulators
gain exactly the image of the cleanly-extracted prefix of the entity
list — while the failing entity and everything after it contribute
nothing; the loop then logs the row and continues with later rows. -/
theorem c5_amended (r : Row) (st : PipelineState) (mid gv : PyVal) (data : JVal)
    (items : List JVal) (e : PyErr)
    (h1 : r.get "id" = .ok mid) (h2 : r.get "genres" = .ok gv)
    (hp : parse_json_string gv = .ok data) (hi : jvalIter data = .ok items)
    (he : (extractPairs items).2 = some e) :
    (∃ pre g suf, items = pre ++ g :: suf ∧ extractEntity g = .error e ∧
      (∀ x ∈ pre, ∃ p, extractEntity x = .ok p) ∧
      (extractPairs items).1 = pre.filterMap (fun x => (extractEntity x).toOption)) ∧
    (processRowBody r st).1.genres_list = st.genres_list ++ (extractPairs items).1 ∧
    (processRowBody r st).1.movie_genres_list =
      st.movie_genres_list ++ (extractPairs items).1.map (fun p => (mid, p.1)) ∧
    (∀ (rest : List Row) (log : List LogLine),
      runRowsFrom st log (r :: rest) =
        runRowsFrom (processRowBody r st).1 (log ++ [(mid, e)]) rest) := by
  have hgv := processGenresVal_eq mid gv st data items hp hi
  have h3 : (processGenresVal mid gv st).2 = some e := by rw [hgv]; simpa using he
  have hb := processRowBody_of_genres_error r st mid gv e h1 h2 h3
  refine ⟨extractPairs_error_decomp items e he, ?_, ?_, ?_⟩
  · simp [hb, hgv]
  · simp [hb, hgv]
  · intro rest log
    exact (runRowsFrom_cons_of_error r rest st log mid e h1 (by rw [hb])).2

/-- Witness for C5 at the concrete row `c5Row`: the accumulators gain
exactly the pairs of the extracted prefix. -/
theorem c5_witness :
    (processRowBody c5Row initState).1.genres_list =
      initState.genres_list ++ (extractPairs c5Items).1 ∧
    (processRowBody c5Row initState).1.movie_genres_list =
      initState.movie_genres_list ++
        (extractPairs c5Items).1.map (fun p => (PyVal.int 7, p.1)) :=
  have h := c5_amended c5Row initState (PyVal.int 7) (PyVal.str c5GenStr)
    (JVal.arr c5Items) c5Items (PyErr.keyError "name")
    (by decide) (by decide) (by decide) (by decide) (by decide)
  ⟨h.2.1, h.2.2.1⟩

/-- C6: deduplication of the fact table. Whenever the column projection
succeeds, the exported `movies` table is the projected rows deduplicated
on `movie_id` with first-occurrence-wins: its ids are pairwise distinct
(one row per distinct record id), each surviving row *is* the first source
occurrence of its id, and every projected row's id is represented. -/
theorem c6 (rows : List Row) (projected : List FactRow)
    (h : rows.mapM mkFactRow = .ok projected) :
    buildFact rows = .ok (dedupByFirst (fun f => f.movie_id) projected) ∧
    ((dedupByFirst (fun f => f.movie_id) projected).map (fun f => f.movie_id)).Nodup ∧
    (∀ f ∈ dedupByFirst (fun f => f.movie_id) projected,
      ∃ l1 l2, projected = l1 ++ f :: l2 ∧ ∀ g ∈ l1, g.movie_id ≠ f.movie_id) ∧
    (∀ g ∈ projected,
      ∃ f ∈ dedupByFirst (fun f => f.movie_id) projected,
        f.movie_id = g.movie_id) := by
  refine ⟨?_, keys_nodup_dedupByFirst _ _, ?_, ?_⟩
  · simp only [buildFact]
    rw [h]
    rfl
  · exact fun f hf => firstOcc_of_mem_dedupByFirst _ _ f hf
  · exact fun g hg => exists_mem_dedupByFirst_of_mem _ _ g hg

/-- Witness for C6: two source rows with the same primary id. -/
theorem c6_witness :
    buildFact [c6Row1, c6Row2] =
      .ok (dedupByFirst (fun f => f.movie_id) c6Projected) ∧
    ((dedupByFirst (fun f => f.movie_id) c6Projected).map
      (fun f => f.movie_id)).Nodup :=
  ⟨(c6 [c6Row1, c6Row2] c6Projected (by decide)).1,
   (c6 [c6Row1, c6Row2] c6Projected (by decide)).2.1⟩

/-- C7: deduplication of the bridge tables. For any source rows, each
exported bridge table contains every recorded `(record_id, entity_id)`
pair exactly once — duplicates within one row's list included — and the
surviving rows appear in first-seen order: the table is a subsequence of
the raw accumulator and each survivor is the first occurrence of its pair. -/
theorem c7 (rows : List Row) :
    (finalizeMovieGenres (runRows rows).state).Nodup ∧
    (∀ p, p ∈ finalizeMovieGenres (runRows rows).state ↔
      p ∈ (runRows rows).state.movie_genres_list) ∧
    (finalizeMovieGenres (runRows rows).state).Sublist
      (runRows rows).state.movie_genres_list ∧
    (∀ p ∈ finalizeMovieGenres (runRows rows).state,
      ∃ l1 l2, (runRows rows).state.movie_genres_list = l1 ++ p :: l2 ∧ p ∉ l1) ∧
    (finalizeMovieCompanies (runRows rows).state).Nodup ∧
    (∀ p, p ∈ finalizeMovieCompanies (runRows rows).state ↔
      p ∈ (runRows rows).state.movie_production_companies_list) ∧
    (finalizeMovieCompanies (runRows rows).state).Sublist
      (runRows rows).state.movie_production_companies_list ∧
    (∀ p ∈ finalizeMovieCompanies (runRows rows).state,
      ∃ l1 l2, (runRows rows).state.movie_production_companies_list =
        l1 ++ p :: l2 ∧ p ∉ l1) :=
  ⟨dedupFirst_nodup _, fun p => mem_dedupFirst _ p, dedupFirst_sublist _,
    fun p hp => firstOcc_of_mem_dedupFirst _ p hp,
    dedupFirst_nodup _, fun p => mem_dedupFirst _ p, dedupFirst_sublist _,
    fun p hp => firstOcc_of_mem_dedupFirst _ p hp⟩

/-- C8: year derivation. A successfully projected fact row's year is
exactly `toYear` of its release-date cell — the 4-digit year component
when the string parses as a date, absent otherwise — and the derivation
never raises: `"1995-10-30"` yields 1995, the empty string and a missing
(`NaN`) cell yield an absent year. -/
theorem c8 (r : Row) (fr : FactRow) (h : mkFactRow r = .ok fr) :
    fr.year = toYear fr.release_date ∧
    toYear (PyVal.str "1995-10-30") = some 1995 ∧
    toYear (PyVal.str "") = none ∧
    toYear PyVal.nan = none := by
  refine ⟨?_, by decide, by decide, by decide⟩
  cases h1 : r.get "id" with
  | error e => simp [mkFactRow, h1] at h
  | ok i =>
  cases h2 : r.get "title" with
  | error e => simp [mkFactRow, h1, h2] at h
  | ok t =>
  cases h3 : r.get "release_date" with
  | error e => simp [mkFactRow, h1, h2, h3] at h
  | ok rd =>
  cases h4 : r.get "budget" with
  | error e => simp [mkFactRow, h1, h2, h3, h4] at h
  | ok b =>
  cases h5 : r.get "revenue" with
  | error e => simp [mkFactRow, h1, h2, h3, h4, h5] at h
  | ok rev =>
  cases h6 : r.get "popularity" with
  | error e => simp [mkFactRow, h1, h2, h3, h4, h5, h6] at h
  | ok pop =>
    simp only [mkFactRow, h1, h2, h3, h4, h5, h6, Except.ok.injEq] at h
    subst h
    rfl

/-- Witness for C8 at the concrete row `c8Row`. -/
theorem c8_witness :
    c8Fact.year = toYear c8Fact.release_date ∧
    toYear (PyVal.str "1995-10-30") = some 1995 :=
  ⟨(c8 c8Row c8Fact (by decide)).1, (c8 c8Row c8Fact (by decide)).2.1⟩

/-- C9: referential integrity of the bridges is an invariant of the run.
For any source rows (failed rows included), every entity id recorded in a
bridge accumulator has a registered entity with that id in the matching
entity registry — both in the raw accumulators and in the finalized
(deduplicated) tables. -/
theorem c9 (rows : List Row) :
    bridgeClosed (runRows rows).state ∧
    (∀ p ∈ finalizeMovieGenres (runRows rows).state,
      ∃ n, (p.2, n) ∈ finalizeGenres (runRows rows).state) ∧
    (∀ p ∈ finalizeMovieCompanies (runRows rows).state,
      ∃ n, (p.2, n) ∈ finalizeCompanies (runRows rows).state) := by
  have hb : bridgeClosed (runRows rows).state :=
    bridgeClosed_runRowsFrom rows initState [] bridgeClosed_init
  refine ⟨hb, ?_, ?_⟩
  · intro p hp
    have hp2 : p ∈ (runRows rows).state.movie_genres_list :=
      (mem_dedupFirst _ _).mp hp
    rcases hb.1 p hp2 with ⟨n, hn⟩
    exact ⟨n, (mem_dedupFirst _ _).mpr hn⟩
  · intro p hp
    have hp2 : p ∈ (runRows rows).state.movie_production_companies_list :=
      (mem_dedupFirst _ _).mp hp
    rcases hb.2 p hp2 with ⟨n, hn⟩
    exact ⟨n, (mem_dedupFirst _ _).mpr hn⟩

/-- C10: the Record Repair Parser performs no shape validation. Whatever
JSON value the repaired text parses to — list of objects or not — is
returned as-is; shape errors are left to the caller's per-row handling. -/
theorem c10 (s : String) (v : JVal) (h : jsonParse (repairQuotes s) = some v) :
    parse_json_string (PyVal.str s) = .ok v := by
  simp [parse_json_string, h]

/-- Witness for C10: a bare number, a single object and a list of scalars
all come back as parsed, not as an empty sequence or key-value maps. -/
theorem c10_witness :
    parse_json_string (PyVal.str "5") = .ok (JVal.num 5) ∧
    parse_json_string (PyVal.str c10ObjStr) = .ok (JVal.obj [("a", JVal.num 1)]) ∧
    parse_json_string (PyVal.str "[1, 2]") =
      .ok (JVal.arr [JVal.num 1, JVal.num 2]) :=
  ⟨c10 _ _ (by decide), c10 _ _ (by decide), c10 _ _ (by decide)⟩
